import Mathlib

/-!
Verification of the Multi-Sensor Detection Fusion & Correlation Engine of the
DataBirdLab dashboard.

The development shallowly embeds the three algorithmic components of the
frontend:

* the color-class inference engine, `speciesInferences` of
  `DataBirdLab/frontend/src/Dashboard.jsx` (lines 245-289);
* the station aggregator, `aruStations` of
  `DataBirdLab/frontend/src/components/UnifiedMap.tsx` (lines 40-58);
* the haversine distance utility `getDistanceMeters` and the pairwise
  correlator `correlations` of
  `DataBirdLab/frontend/src/components/InspectorPanel.tsx` (lines 43-56 and
  185-206).

JavaScript numbers are idealised as exact arithmetic: the inference engine and
the station aggregator (whose arithmetic is rounding of decimal counts and
coordinates) are embedded over `ℚ`, the trigonometric distance utility over
`ℝ`.  A JavaScript value that may be `undefined`/`NaN` is carried as an
`Option`: every arithmetic operation propagates `none` and every comparison
with `none` is false, exactly as NaN behaves in JS.  `Array.prototype.sort` is
stable for a consistent comparator (ES2019), which insertion sort with a
non-strict comparator reproduces.
-/

namespace BirdFusion

/-! ## Color-class inference engine (Dashboard.jsx, `speciesInferences`) -/

/-- Embeds `m?.[k] || 0`: a count looked up in a JS object of per-label
counts, `0` when the key is absent. -/
def lookup0 (m : List (String × ℕ)) (k : String) : ℕ :=
  (m.lookup k).getD 0

/-- Embeds JavaScript `Math.round`: round half toward positive infinity. -/
def jsRound (q : ℚ) : ℤ :=
  ⌊q + 1 / 2⌋

/-- One entry of the `speciesBreakdown` array after probabilities are
attached: `{ species, audioCount, probability }`. -/
structure SpeciesProb where
  species : String
  audioCount : ℕ
  probability : ℤ
deriving DecidableEq

/-- One record pushed onto `inferences` by the loop body of
`speciesInferences`. -/
structure Inference where
  colorClass : String
  droneClass : String
  droneCount : ℕ
  species : List SpeciesProb
  totalAudioDetections : ℕ
  unidentified : ℕ
  confidenceScore : ℤ
deriving DecidableEq

/-- The comparator `(a, b) => b.probability - a.probability`: `a` may stay
before `b` exactly when the comparator is non-positive. -/
def probDesc (a b : SpeciesProb) : Prop :=
  b.probability ≤ a.probability

instance : DecidableRel probDesc := fun a b =>
  inferInstanceAs (Decidable (b.probability ≤ a.probability))

/-- Embeds `const explainedCount = Math.min(droneCount, totalAudio)`. -/
def explainedCount (droneCount totalAudio : ℕ) : ℕ :=
  min droneCount totalAudio

/-- The body of the `for (const [colorKey, speciesList] of
Object.entries(species_color_mapping || {}))` loop of `speciesInferences`
(Dashboard.jsx lines 252-287): `none` when the iteration hits `continue`. -/
def inferColor (visual acoustic : List (String × ℕ)) (entry : String × List String) :
    Option Inference :=
  let droneClass := entry.1 ++ "_birds"
  let droneCount := lookup0 visual droneClass
  if droneCount = 0 then none else
  let speciesBreakdown :=
    (entry.2.map fun species => (species, lookup0 acoustic species)).filter
      fun s => 0 < s.2
  let totalAudio := (speciesBreakdown.map Prod.snd).sum
  let withProbabilities :=
    List.insertionSort probDesc
      (speciesBreakdown.map fun s =>
        { species := s.1
          audioCount := s.2
          probability :=
            if 0 < totalAudio then jsRound ((s.2 : ℚ) / (totalAudio : ℚ) * 100) else 0 })
  some
    { colorClass := entry.1
      droneClass := droneClass
      droneCount := droneCount
      species := withProbabilities
      totalAudioDetections := totalAudio
      unidentified := droneCount - explainedCount droneCount totalAudio
      confidenceScore :=
        if 0 < totalAudio then
          min 100 (jsRound ((totalAudio : ℚ) / (droneCount : ℚ) * 100))
        else 0 }

/-- Embeds the `speciesInferences` memo of Dashboard.jsx: iterate the color →
species mapping (`species_color_mapping || {}`, an insertion-ordered object)
and collect the records the loop pushes. -/
def speciesInferences (mapping : Option (List (String × List String)))
    (visual acoustic : List (String × ℕ)) : List Inference :=
  (mapping.getD []).filterMap (inferColor visual acoustic)

/-- The fusion report: raw per-label counts plus the per-color inferences. -/
structure FusionReport where
  visual_counts : List (String × ℕ)
  acoustic_counts : List (String × ℕ)
  inferences : List Inference
deriving DecidableEq

/-- Modelled from the spec: the Fusion Report Assembler (spec section 4.4) is
backend code not present under the repository's shown sources; per the spec it
attaches the supplied `visual_counts` and `acoustic_counts` to the report
verbatim and collects the inference engine's records, the inference step being
the `speciesInferences` computation of Dashboard.jsx (which itself guards a
missing mapping with `species_color_mapping || {}`). -/
def buildFusionReport (visual acoustic : List (String × ℕ))
    (mapping : Option (List (String × List String))) : FusionReport :=
  { visual_counts := visual
    acoustic_counts := acoustic
    inferences := speciesInferences mapping visual acoustic }

/-! ## Station aggregator (UnifiedMap.tsx, `aruStations`) -/

/-- One raw acoustic detection, with the fields the station grouping reads:
`lat`, `lon` and the optional numeric `aru_id`. -/
structure AcousticDetection where
  lat : ℚ
  lon : ℚ
  aru_id : Option ℤ
deriving DecidableEq

/-- Embeds `x.toFixed(4)` as the pair (leading minus sign, rounded digit
string read as the integer of ten-thousandths): ECMAScript `toFixed` prints a
minus sign when `x < 0` and then rounds `|x|` half away from zero to four
decimals, so two numbers produce the same string exactly when these pairs are
equal. -/
def toFixed4 (x : ℚ) : Bool × ℤ :=
  if x < 0 then (true, ⌊-x * 10000 + 1 / 2⌋) else (false, ⌊x * 10000 + 1 / 2⌋)

/-- The grouping key `d.aru_id ? aru-id : lat.toFixed(4), lon.toFixed(4)`:
a JS number is truthy exactly when it is neither `0` nor `NaN`, so an
`aru_id` of `0` falls through to the coordinate key. -/
inductive StationKey where
  | byAru (n : ℤ)
  | byCoord (latS lonS : Bool × ℤ)
deriving DecidableEq

/-- Embeds the key expression of `aruStations` (UnifiedMap.tsx line 44). -/
def stationKey (d : AcousticDetection) : StationKey :=
  match d.aru_id with
  | some n => if n = 0 then .byCoord (toFixed4 d.lat) (toFixed4 d.lon) else .byAru n
  | none => .byCoord (toFixed4 d.lat) (toFixed4 d.lon)

/-- One value of the `stations` object: representative coordinates (the first
detection's), the owned detections, the display label and the raw `aru_id`. -/
structure Station where
  lat : ℚ
  lon : ℚ
  detections : List AcousticDetection
  id : String
  aru_id : Option ℤ
deriving DecidableEq

/-- The station record created when a key is first seen (`nPrior` stations
exist already): detections start empty, the label is `ARU n` for a truthy
`aru_id` and `Station (nPrior+1)` otherwise. -/
def mkStation (d : AcousticDetection) (nPrior : ℕ) : Station :=
  { lat := d.lat
    lon := d.lon
    detections := []
    id :=
      match d.aru_id with
      | some n => if n = 0 then "Station " ++ toString (nPrior + 1) else "ARU " ++ toString n
      | none => "Station " ++ toString (nPrior + 1)
    aru_id := d.aru_id }

/-- Embeds `stations[key].detections.push(d)`: append `d` to the entry with
the given key (keys are unique by construction). -/
def pushDetection (key : StationKey) (d : AcousticDetection) :
    List (StationKey × Station) → List (StationKey × Station)
  | [] => []
  | (k, s) :: rest =>
      if k = key then (k, { s with detections := s.detections ++ [d] }) :: rest
      else (k, s) :: pushDetection key d rest

/-- One iteration of the `acousticDetections.forEach` body of `aruStations`:
create the station on first sight of the key, then push the detection. -/
def addDetection (acc : List (StationKey × Station)) (d : AcousticDetection) :
    List (StationKey × Station) :=
  let key := stationKey d
  let acc' := if (acc.lookup key).isSome then acc else acc ++ [(key, mkStation d acc.length)]
  pushDetection key d acc'

/-- The `stations` object after the whole `forEach`, as an insertion-ordered
association list (all its keys are non-index strings, so JS object iteration
order is insertion order). -/
def aruStationsEntries (ds : List AcousticDetection) : List (StationKey × Station) :=
  ds.foldl addDetection []

/-- Embeds `aruStations` (UnifiedMap.tsx lines 40-58): `Object.values` of the
accumulated stations object. -/
def aruStations (ds : List AcousticDetection) : List Station :=
  (aruStationsEntries ds).map Prod.snd

/-- Two detections of the input land in one Station of the grouping. -/
def inOneStation (ds : List AcousticDetection) (d₁ d₂ : AcousticDetection) : Prop :=
  ∃ s ∈ aruStations ds, d₁ ∈ s.detections ∧ d₂ ∈ s.detections

instance (ds : List AcousticDetection) (d₁ d₂ : AcousticDetection) :
    Decidable (inOneStation ds d₁ d₂) :=
  inferInstanceAs (Decidable (∃ s ∈ aruStations ds, d₁ ∈ s.detections ∧ d₂ ∈ s.detections))

/-! ## Distance utility and pairwise correlator (InspectorPanel.tsx) -/

/-- Embeds `Math.atan2(y, x)` over the reals (signed zeros aside, which the
real numbers do not distinguish). Only the `x > 0` branch is exercised by the
haversine formula, whose second argument is a square root. -/
noncomputable def jsAtan2 (y x : ℝ) : ℝ :=
  if 0 < x then Real.arctan (y / x)
  else if x < 0 then
    (if 0 ≤ y then Real.arctan (y / x) + Real.pi else Real.arctan (y / x) - Real.pi)
  else if 0 < y then Real.pi / 2
  else if y < 0 then -(Real.pi / 2)
  else 0

/-- Embeds `getDistanceMeters` (InspectorPanel.tsx lines 43-56): the haversine
great-circle distance on a sphere of radius 6371e3 metres. -/
noncomputable def getDistanceMeters (lat1 lon1 lat2 lon2 : ℝ) : ℝ :=
  let R : ℝ := 6371e3
  let phi1 := lat1 * Real.pi / 180
  let phi2 := lat2 * Real.pi / 180
  let dphi := (lat2 - lat1) * Real.pi / 180
  let dlam := (lon2 - lon1) * Real.pi / 180
  let a := Real.sin (dphi / 2) * Real.sin (dphi / 2) +
    Real.cos phi1 * Real.cos phi2 * Real.sin (dlam / 2) * Real.sin (dlam / 2)
  let c := 2 * jsAtan2 (Real.sqrt a) (Real.sqrt (1 - a))
  R * c

/-- One detection as the correlator reads it: `lat`/`lon` may be missing
(`undefined` in JS, which arithmetic turns into NaN), the timestamp is
`new Date(d.timestamp).getTime()` in milliseconds. -/
structure Detection where
  lat : Option ℝ
  lon : Option ℝ
  timestamp : ℝ

/-- One result record of the correlator: `{ data, dist, timeDiff, type }`.
`dist` is `none` when the JS computation would be NaN. -/
structure Correlation where
  data : Detection
  dist : Option ℝ
  timeDiff : ℝ
  type : String

/-- The value of `getDistanceMeters(lat1, lon1, lat2, lon2)` under NaN
propagation: every `Math` operation on NaN yields NaN, so a missing input
makes the whole distance NaN (`none`). -/
noncomputable def jsDist : Option ℝ → Option ℝ → Option ℝ → Option ℝ → Option ℝ
  | some lat1, some lon1, some lat2, some lon2 => some (getDistanceMeters lat1 lon1 lat2 lon2)
  | _, _, _, _ => none

/-- The record built for one candidate `d` in the `.map` stage of the
`correlations` memo (InspectorPanel.tsx lines 194-201). -/
noncomputable def mkCorrelation (current : Detection) (otherType : String) (d : Detection) :
    Correlation :=
  { data := d
    dist := jsDist current.lat current.lon d.lat d.lon
    timeDiff := |current.timestamp - d.timestamp| / 1000 / 60
    type := otherType }

/-- The `.filter` predicate `item.dist < 500 && item.timeDiff < 30`: a NaN
distance compares false, exactly as in JS. -/
noncomputable def matchesWindow (item : Correlation) : Bool :=
  (match item.dist with
    | some x => decide (x < 500)
    | none => false) && decide (item.timeDiff < 30)

/-- The comparator `(a, b) => a.dist - b.dist` as the non-strict "may come
first" relation of a stable sort, on distances. The strict `< 500` filter has
already removed every NaN distance when the sort runs, so the `none` cases are
never reached there; they are completed to a total transitive relation. -/
noncomputable def distLeB (a b : Correlation) : Bool :=
  match a.dist, b.dist with
  | none, _ => true
  | some _, none => false
  | some x, some y => decide (x ≤ y)

/-- Propositional form of `distLeB`. -/
def distLe (a b : Correlation) : Prop :=
  distLeB a b = true

noncomputable instance : DecidableRel distLe := fun a b =>
  inferInstanceAs (Decidable (distLeB a b = true))

instance : IsTotal Correlation distLe where
  total a b := by
    unfold distLe distLeB
    rcases a.dist with _ | x <;> rcases b.dist with _ | y <;> simp
    exact le_total x y

instance : IsTrans Correlation distLe where
  trans a b c hab hbc := by
    unfold distLe distLeB at *
    rcases ha : a.dist with _ | x <;> rcases hb : b.dist with _ | y <;>
      rcases hc : c.dist with _ | z <;> simp_all
    exact le_trans hab hbc

/-- Embeds the `correlations` memo (InspectorPanel.tsx lines 185-206): map the
opposite-modality collection to result records, keep those inside the 500 m /
30 min window, sort ascending by distance (`Array.prototype.sort` is stable,
which insertion sort with the non-strict comparator reproduces). -/
noncomputable def correlations (current : Detection) (otherType : String)
    (sourceData : List Detection) : List Correlation :=
  List.insertionSort distLe
    ((sourceData.map (mkCorrelation current otherType)).filter matchesWindow)

/-- The ordering the spec claims for the correlator's output: ascending by
distance, ties broken by ascending time delta. -/
def DistTimeOrdered (l : List Correlation) : Prop :=
  l.Sorted fun a b => distLe a b ∧ (a.dist = b.dist → a.timeDiff ≤ b.timeDiff)

/-- Membership of one equal-distance class of result records: the comparator
of the stable sort distinguishes records only up to this value, so restricting
a list to one class exposes the relative order the sort leaves untouched. -/
noncomputable def sameDist (q : Option ℝ) (i : Correlation) : Bool :=
  decide (i.dist = q)

/-! ## Theorems: the color-class inference engine -/

/-- Claim C1: on the end-to-end scenario (visual counts white 10 / black 4,
acoustic counts Great Egret 6 / Little Egret 2 / Asian Openbill 5, mapping
white to the egrets and black to the openbill) the engine produces exactly the
white inference with breakdown Great Egret 6 at 75 percent and Little Egret 2
at 25 percent, explained 8 (so 2 unidentified) and confidence 80, and the
black inference with breakdown Asian Openbill 5 at 100 percent, explained 4
(0 unidentified) and confidence min(100, 125) = 100, each probability rounded
independently without renormalisation. -/
theorem speciesInferences_end_to_end :
    speciesInferences
        (some [("white", ["Great Egret", "Little Egret"]), ("black", ["Asian Openbill"])])
        [("white_birds", 10), ("black_birds", 4)]
        [("Great Egret", 6), ("Little Egret", 2), ("Asian Openbill", 5)] =
      [{ colorClass := "white", droneClass := "white_birds", droneCount := 10,
         species := [⟨"Great Egret", 6, 75⟩, ⟨"Little Egret", 2, 25⟩],
         totalAudioDetections := 8, unidentified := 2, confidenceScore := 80 },
       { colorClass := "black", droneClass := "black_birds", droneCount := 4,
         species := [⟨"Asian Openbill", 5, 100⟩],
         totalAudioDetections := 5, unidentified := 0, confidenceScore := 100 }]
    ∧ explainedCount 10 8 = 8 ∧ explainedCount 4 5 = 4
    ∧ jsRound ((6 : ℚ) / 8 * 100) = 75 ∧ jsRound ((2 : ℚ) / 8 * 100) = 25
    ∧ jsRound ((5 : ℚ) / 4 * 100) = 125 ∧ min (100 : ℤ) 125 = 100 := by
  refine ⟨?_, rfl, rfl, ?_, ?_, ?_, rfl⟩
  · simp [speciesInferences, inferColor, lookup0, List.lookup, explainedCount, probDesc,
      List.insertionSort, List.orderedInsert]
    norm_num [jsRound]
  · norm_num [jsRound]
  · norm_num [jsRound]
  · norm_num [jsRound]

/-- Claim C6: a color class whose drone count is zero (absent keys count as
zero) contributes no inference record, even when acoustic counts exist for its
species: the produced list has no record carrying that color class. -/
theorem zero_drone_class_emits_no_inference
    (mapping : Option (List (String × List String))) (visual acoustic : List (String × ℕ))
    (c : String) (h : lookup0 visual (c ++ "_birds") = 0) :
    (speciesInferences mapping visual acoustic).filter
      (fun inf => inf.colorClass == c) = [] := by
  rw [List.filter_eq_nil_iff]
  intro inf hmem hbeq
  rcases List.mem_filterMap.mp hmem with ⟨entry, -, hsome⟩
  by_cases hd : lookup0 visual (entry.1 ++ "_birds") = 0
  · simp [inferColor, hd] at hsome
  · have hcolor : inf.colorClass = entry.1 := by
      simp only [inferColor] at hsome
      rw [if_neg hd] at hsome
      rw [← Option.some_inj.mp hsome]
    rw [beq_iff_eq] at hbeq
    rw [hbeq] at hcolor
    rw [← hcolor] at hd
    exact hd h

/-- Witness for the zero-drone-count claim at a concrete input: the mapping
sends black to Asian Openbill with 7 acoustic detections, but the visual
counts have no black class, so no black inference is produced. -/
theorem zero_drone_class_emits_no_inference_witness :
    (speciesInferences (some [("black", ["Asian Openbill"])]) [("white_birds", 3)]
        [("Asian Openbill", 7)]).filter (fun inf => inf.colorClass == "black") = [] :=
  zero_drone_class_emits_no_inference _ _ _ "black" (by decide)

/-- Claim C7: with an absent or empty color-species mapping the assembler
still succeeds, returning an empty inference list and the two count maps
echoed verbatim. -/
theorem buildFusionReport_empty_mapping (visual acoustic : List (String × ℕ))
    (mapping : Option (List (String × List String)))
    (h : mapping = none ∨ mapping = some []) :
    buildFusionReport visual acoustic mapping =
      { visual_counts := visual, acoustic_counts := acoustic, inferences := [] } := by
  rcases h with h | h <;> subst h <;> rfl

/-- Witness for the empty-mapping claim at concrete counts: the report echoes
both maps and carries no inference. -/
theorem buildFusionReport_empty_mapping_witness :
    buildFusionReport [("white_birds", 2)] [("Great Egret", 1)] none =
      { visual_counts := [("white_birds", 2)], acoustic_counts := [("Great Egret", 1)],
        inferences := [] } :=
  buildFusionReport_empty_mapping _ _ _ (Or.inl rfl)

/-- Claim C10: a species with a strictly positive audio count can appear in
the breakdown with probability 0: with acoustic counts A 1 and B 300 mapped to
one color, species A is listed with audioCount 1 and probability 0. In
general the rounded percentage is 0 whenever audioCount / totalAudio is below
1/200. -/
theorem positive_audio_count_probability_zero :
    speciesInferences (some [("white", ["A", "B"])]) [("white_birds", 5)]
        [("A", 1), ("B", 300)] =
      [{ colorClass := "white", droneClass := "white_birds", droneCount := 5,
         species := [⟨"B", 300, 100⟩, ⟨"A", 1, 0⟩],
         totalAudioDetections := 301, unidentified := 0, confidenceScore := 100 }]
    ∧ (∀ a t : ℕ, 0 < t → (a : ℚ) / (t : ℚ) < 1 / 200 →
        jsRound ((a : ℚ) / (t : ℚ) * 100) = 0) := by
  constructor
  · simp [speciesInferences, inferColor, lookup0, List.lookup, explainedCount, probDesc,
      List.insertionSort, List.orderedInsert]
    norm_num [jsRound]
  · intro a t ht hlt
    have h0 : (0 : ℚ) ≤ (a : ℚ) / (t : ℚ) * 100 := by positivity
    have h1 : (a : ℚ) / (t : ℚ) * 100 < 1 / 2 := by
      have := mul_lt_mul_of_pos_right hlt (by norm_num : (0 : ℚ) < 100)
      linarith
    rw [jsRound, Int.floor_eq_zero_iff]
    constructor
    · linarith
    · simpa using by linarith

/-! ## Theorems: the station aggregator

The key fact is that the grouping is governed entirely by `stationKey`: the
`stations` object maps each key to the one station holding exactly the
detections with that key. -/

/-- Pushing a detection never changes the key list of the accumulator. -/
theorem pushDetection_map_fst (key : StationKey) (d : AcousticDetection) :
    ∀ l : List (StationKey × Station), (pushDetection key d l).map Prod.fst = l.map Prod.fst
  | [] => rfl
  | (k, s) :: rest => by
      by_cases h : k = key
      · simp [pushDetection, h]
      · simp [pushDetection, h, pushDetection_map_fst key d rest]

/-- A key has a lookup result exactly when it is one of the stored keys. -/
theorem station_lookup_isSome (k : StationKey) :
    ∀ l : List (StationKey × Station), (l.lookup k).isSome = true ↔ k ∈ l.map Prod.fst
  | [] => by simp [List.lookup]
  | (k', s) :: rest => by
      by_cases h : k = k'
      · subst h; simp [List.lookup]
      · simp [List.lookup, beq_eq_false_iff_ne.mpr h, h, station_lookup_isSome k rest]

/-- The key list after one `forEach` iteration: unchanged for a seen key,
extended by the new key otherwise. -/
theorem addDetection_map_fst (acc : List (StationKey × Station)) (d : AcousticDetection) :
    (addDetection acc d).map Prod.fst =
      if (acc.lookup (stationKey d)).isSome then acc.map Prod.fst
      else acc.map Prod.fst ++ [stationKey d] := by
  unfold addDetection
  by_cases h : (acc.lookup (stationKey d)).isSome
  · simp [h, pushDetection_map_fst]
  · simp [h, pushDetection_map_fst]

/-- The accumulated station keys stay pairwise distinct. -/
theorem foldl_addDetection_nodup :
    ∀ (ds : List AcousticDetection) (acc : List (StationKey × Station)),
      (acc.map Prod.fst).Nodup → ((ds.foldl addDetection acc).map Prod.fst).Nodup
  | [], _, h => h
  | d :: ds, acc, h => by
      refine foldl_addDetection_nodup ds (addDetection acc d) ?_
      rw [addDetection_map_fst]
      by_cases hs : (acc.lookup (stationKey d)).isSome
      · simpa [hs] using h
      · have hk : stationKey d ∉ acc.map Prod.fst := by
          rw [← station_lookup_isSome]
          simpa using hs
        simp [hs, List.nodup_append, h, hk]

/-- Every entry after a push is an old entry or the pushed-into entry. -/
theorem pushDetection_mem (key : StationKey) (d : AcousticDetection) :
    ∀ (l : List (StationKey × Station)) (e : StationKey × Station),
      e ∈ pushDetection key d l →
      e ∈ l ∨ ∃ s, (key, s) ∈ l ∧ e = (key, { s with detections := s.detections ++ [d] })
  | [], e, he => by simp [pushDetection] at he
  | (k, s) :: rest, e, he => by
      by_cases h : k = key
      · subst h
        rw [pushDetection, if_pos rfl] at he
        rcases List.mem_cons.mp he with he | he
        · exact Or.inr ⟨s, List.mem_cons_self _ _, he⟩
        · exact Or.inl (List.mem_cons_of_mem _ he)
      · rw [pushDetection, if_neg h] at he
        rcases List.mem_cons.mp he with he | he
        · exact Or.inl (he ▸ List.mem_cons_self _ _)
        · rcases pushDetection_mem key d rest e he with h' | ⟨s', hs', he'⟩
          · exact Or.inl (List.mem_cons_of_mem _ h')
          · exact Or.inr ⟨s', List.mem_cons_of_mem _ hs', he'⟩

/-- Invariant: every stored detection has the key of its entry. -/
theorem foldl_addDetection_key_inv :
    ∀ (ds : List AcousticDetection) (acc : List (StationKey × Station)),
      (∀ e ∈ acc, ∀ x ∈ e.2.detections, stationKey x = e.1) →
      ∀ e ∈ ds.foldl addDetection acc, ∀ x ∈ e.2.detections, stationKey x = e.1
  | [], _, h => h
  | d :: ds, acc, h => by
      refine foldl_addDetection_key_inv ds (addDetection acc d) ?_
      intro e he x hx
      simp only [addDetection] at he
      rcases pushDetection_mem _ _ _ _ he with he' | ⟨s, hs, rfl⟩
      · by_cases hl : (acc.lookup (stationKey d)).isSome
        · rw [if_pos hl] at he'
          exact h e he' x hx
        · rw [if_neg hl] at he'
          rcases List.mem_append.mp he' with he' | he'
          · exact h e he' x hx
          · rcases List.mem_singleton.mp he' with rfl
            simp [mkStation] at hx
      · rcases List.mem_append.mp hx with hx | hx
        · by_cases hl : (acc.lookup (stationKey d)).isSome
          · rw [if_pos hl] at hs
            exact h _ hs x hx
          · rw [if_neg hl] at hs
            rcases List.mem_append.mp hs with hs | hs
            · exact h _ hs x hx
            · rcases List.mem_singleton.mp hs with ⟨rfl, rfl⟩
              simp [mkStation] at hx
        · rcases List.mem_singleton.mp hx with rfl
          rfl

/-- A stored detection survives a push (its entry only ever grows). -/
theorem pushDetection_preserve (key : StationKey) (d : AcousticDetection) :
    ∀ (l : List (StationKey × Station)) (k' : StationKey) (s' : Station)
      (x : AcousticDetection), (k', s') ∈ l → x ∈ s'.detections →
      ∃ s'', (k', s'') ∈ pushDetection key d l ∧ x ∈ s''.detections
  | [], _, _, _, hmem, _ => by simp at hmem
  | (k, s) :: rest, k', s', x, hmem, hx => by
      by_cases h : k = key
      · subst h
        rw [pushDetection, if_pos rfl]
        rcases List.mem_cons.mp hmem with he | he
        · rcases he with ⟨rfl, rfl⟩
          exact ⟨_, List.mem_cons_self _ _, List.mem_append_left _ hx⟩
        · exact ⟨s', List.mem_cons_of_mem _ he, hx⟩
      · rw [pushDetection, if_neg h]
        rcases List.mem_cons.mp hmem with he | he
        · injection he with hk hs
          subst hk
          subst hs
          exact ⟨_, List.mem_cons_self _ _, hx⟩
        · rcases pushDetection_preserve key d rest k' s' x he hx with ⟨s'', hs'', hx''⟩
          exact ⟨s'', List.mem_cons_of_mem _ hs'', hx''⟩

/-- A stored detection survives a whole `forEach` iteration. -/
theorem addDetection_preserve (acc : List (StationKey × Station)) (d : AcousticDetection)
    (k' : StationKey) (s' : Station) (x : AcousticDetection)
    (hmem : (k', s') ∈ acc) (hx : x ∈ s'.detections) :
    ∃ s'', (k', s'') ∈ addDetection acc d ∧ x ∈ s''.detections := by
  simp only [addDetection]
  by_cases hl : (acc.lookup (stationKey d)).isSome
  · rw [if_pos hl]
    exact pushDetection_preserve _ _ _ _ _ _ hmem hx
  · rw [if_neg hl]
    exact pushDetection_preserve _ _ _ _ _ _ (List.mem_append_left _ hmem) hx

/-- Pushing onto a key that is present lands the detection in that entry. -/
theorem pushDetection_self (key : StationKey) (d : AcousticDetection) :
    ∀ l : List (StationKey × Station), key ∈ l.map Prod.fst →
      ∃ s, (key, s) ∈ pushDetection key d l ∧ d ∈ s.detections
  | [], h => by simp at h
  | (k, s) :: rest, h => by
      rw [List.map_cons] at h
      by_cases hk : k = key
      · subst hk
        rw [pushDetection, if_pos rfl]
        exact ⟨_, List.mem_cons_self _ _, List.mem_append_right _ (List.mem_singleton_self d)⟩
      · rw [pushDetection, if_neg hk]
        have h' : key ∈ rest.map Prod.fst := by
          rcases List.mem_cons.mp h with h' | h'
          · exact absurd h'.symm hk
          · exact h'
        rcases pushDetection_self key d rest h' with ⟨s', hs', hd⟩
        exact ⟨s', List.mem_cons_of_mem _ hs', hd⟩

/-- One `forEach` iteration stores the processed detection under its key. -/
theorem addDetection_self (acc : List (StationKey × Station)) (d : AcousticDetection) :
    ∃ s, (stationKey d, s) ∈ addDetection acc d ∧ d ∈ s.detections := by
  simp only [addDetection]
  by_cases hl : (acc.lookup (stationKey d)).isSome
  · rw [if_pos hl]
    exact pushDetection_self _ _ _ ((station_lookup_isSome _ _).mp hl)
  · rw [if_neg hl]
    refine pushDetection_self _ _ _ ?_
    simp

/-- A stored detection survives the rest of the fold. -/
theorem foldl_addDetection_preserve :
    ∀ (ds : List AcousticDetection) (acc : List (StationKey × Station)) (k : StationKey)
      (s : Station) (x : AcousticDetection), (k, s) ∈ acc → x ∈ s.detections →
      ∃ s', (k, s') ∈ ds.foldl addDetection acc ∧ x ∈ s'.detections
  | [], _, _, s, _, hmem, hx => ⟨s, hmem, hx⟩
  | d :: ds, acc, k, s, x, hmem, hx => by
      rcases addDetection_preserve acc d k s x hmem hx with ⟨s'', hs'', hx''⟩
      exact foldl_addDetection_preserve ds (addDetection acc d) k s'' x hs'' hx''

/-- Every input detection ends up stored under its own station key. -/
theorem mem_foldl_addDetection :
    ∀ (ds : List AcousticDetection) (acc : List (StationKey × Station))
      (d : AcousticDetection), d ∈ ds →
      ∃ s, (stationKey d, s) ∈ ds.foldl addDetection acc ∧ d ∈ s.detections
  | [], _, _, h => by simp at h
  | d' :: ds, acc, d, h => by
      rcases List.mem_cons.mp h with rfl | h'
      · rcases addDetection_self acc d with ⟨s, hs, hd⟩
        exact foldl_addDetection_preserve ds _ _ s d hs hd
      · exact mem_foldl_addDetection ds (addDetection acc d') d h'

/-- With pairwise distinct keys, a key determines its entry. -/
theorem nodup_keys_unique :
    ∀ (l : List (StationKey × Station)) (k : StationKey) (s₁ s₂ : Station),
      (l.map Prod.fst).Nodup → (k, s₁) ∈ l → (k, s₂) ∈ l → s₁ = s₂
  | [], _, _, _, _, h₁, _ => by simp at h₁
  | (k', s) :: rest, k, s₁, s₂, hnd, h₁, h₂ => by
      rw [List.map_cons] at hnd
      have hk' : k' ∉ rest.map Prod.fst := (List.nodup_cons.mp hnd).1
      rcases List.mem_cons.mp h₁ with he₁ | he₁ <;> rcases List.mem_cons.mp h₂ with he₂ | he₂
      · injection he₁ with hk1 hs1
        injection he₂ with hk2 hs2
        rw [hs1, hs2]
      · injection he₁ with hk1 hs1
        exact absurd (hk1 ▸ List.mem_map_of_mem Prod.fst he₂) hk'
      · injection he₂ with hk2 hs2
        exact absurd (hk2 ▸ List.mem_map_of_mem Prod.fst he₁) hk'
      · exact nodup_keys_unique rest k s₁ s₂ (List.nodup_cons.mp hnd).2 he₁ he₂

/-- Two input detections share a Station exactly when they share a grouping
key. -/
theorem inOneStation_iff_stationKey (ds : List AcousticDetection)
    (d₁ d₂ : AcousticDetection) (h₁ : d₁ ∈ ds) (h₂ : d₂ ∈ ds) :
    inOneStation ds d₁ d₂ ↔ stationKey d₁ = stationKey d₂ := by
  constructor
  · rintro ⟨s, hs, hd₁, hd₂⟩
    rcases List.mem_map.mp hs with ⟨⟨k, s'⟩, hks, rfl⟩
    have hinv := foldl_addDetection_key_inv ds [] (by simp) _ hks
    rw [hinv d₁ hd₁, hinv d₂ hd₂]
  · intro hkey
    rcases mem_foldl_addDetection ds [] d₁ h₁ with ⟨s₁, hs₁, hd₁⟩
    rcases mem_foldl_addDetection ds [] d₂ h₂ with ⟨s₂, hs₂, hd₂⟩
    rw [hkey] at hs₁
    have hnd := foldl_addDetection_nodup ds [] (by simp)
    have := nodup_keys_unique _ _ _ _ hnd hs₁ hs₂
    subst this
    exact ⟨s₁, List.mem_map_of_mem Prod.snd hs₂, hd₁, hd₂⟩

/-- Evaluation of the coordinate rounding at 1: the string "1.0000". -/
theorem toFixed4_one : toFixed4 (1 : ℚ) = (false, 10000) := by
  norm_num [toFixed4]

/-- Evaluation of the coordinate rounding at 2: the string "2.0000". -/
theorem toFixed4_two : toFixed4 (2 : ℚ) = (false, 20000) := by
  norm_num [toFixed4]

/-- Counterexample to claim C5 as stated: the two detections below carry the
same numeric aru_id, namely 0, yet they are not grouped into one Station —
0 is falsy in JS, so the key test falls through to the rounded coordinates,
which differ. -/
theorem same_aruId_zero_not_one_station :
    (AcousticDetection.mk 1 1 (some 0)).aru_id = (AcousticDetection.mk 2 1 (some 0)).aru_id
    ∧ decide (inOneStation [AcousticDetection.mk 1 1 (some 0), AcousticDetection.mk 2 1 (some 0)]
        (AcousticDetection.mk 1 1 (some 0)) (AcousticDetection.mk 2 1 (some 0))) = false := by
  refine ⟨rfl, decide_eq_false ?_⟩
  rw [inOneStation_iff_stationKey _ _ _ (by simp) (by simp)]
  simp only [stationKey, toFixed4_one, toFixed4_two]
  simp

/-- Amended claim C5: two acoustic detections with the same truthy (nonzero)
aru_id always share one Station regardless of raw coordinates, and two
detections with no aru_id share one Station exactly when their latitudes and
longitudes round to the same `toFixed(4)` strings. -/
theorem station_grouping_amended :
    (∀ (ds : List AcousticDetection) (d₁ d₂ : AcousticDetection) (n : ℤ),
        d₁ ∈ ds → d₂ ∈ ds → d₁.aru_id = some n → d₂.aru_id = some n → n ≠ 0 →
        inOneStation ds d₁ d₂)
    ∧ (∀ (ds : List AcousticDetection) (d₁ d₂ : AcousticDetection),
        d₁ ∈ ds → d₂ ∈ ds → d₁.aru_id = none → d₂.aru_id = none →
        (inOneStation ds d₁ d₂ ↔
          toFixed4 d₁.lat = toFixed4 d₂.lat ∧ toFixed4 d₁.lon = toFixed4 d₂.lon)) := by
  constructor
  · intro ds d₁ d₂ n h₁ h₂ ha₁ ha₂ hn
    rw [inOneStation_iff_stationKey ds d₁ d₂ h₁ h₂]
    simp [stationKey, ha₁, ha₂, hn]
  · intro ds d₁ d₂ h₁ h₂ ha₁ ha₂
    rw [inOneStation_iff_stationKey ds d₁ d₂ h₁ h₂]
    simp [stationKey, ha₁, ha₂]

/-- Witness for the amended station-grouping claim: detections 7 and 7 at
different coordinates share a Station, and two id-less detections at the same
coordinates satisfy the coordinate-key equivalence. -/
theorem station_grouping_amended_witness :
    inOneStation [AcousticDetection.mk 1 2 (some 7), AcousticDetection.mk 3 4 (some 7)]
      (AcousticDetection.mk 1 2 (some 7)) (AcousticDetection.mk 3 4 (some 7))
    ∧ (inOneStation [AcousticDetection.mk 1 2 none, AcousticDetection.mk 1 2 none]
        (AcousticDetection.mk 1 2 none) (AcousticDetection.mk 1 2 none) ↔
        toFixed4 (AcousticDetection.mk 1 2 none).lat = toFixed4 (AcousticDetection.mk 1 2 none).lat
        ∧ toFixed4 (AcousticDetection.mk 1 2 none).lon =
            toFixed4 (AcousticDetection.mk 1 2 none).lon) :=
  ⟨station_grouping_amended.1 _ _ _ 7 (by simp) (by simp) rfl rfl (by decide),
   station_grouping_amended.2 _ _ _ (by simp) (by simp) rfl rfl⟩

/-- Claim C9: an aru_id equal to 0 is treated as absent (JS truthiness), so a
detection carrying it groups by its rounded coordinates; in particular two
detections with aru_id 0 and different rounded coordinates form two distinct
Stations. -/
theorem aruId_zero_groups_by_coordinates :
    (∀ (ds : List AcousticDetection) (d₁ d₂ : AcousticDetection),
        d₁ ∈ ds → d₂ ∈ ds → d₁.aru_id = some 0 → d₂.aru_id = some 0 →
        (inOneStation ds d₁ d₂ ↔
          toFixed4 d₁.lat = toFixed4 d₂.lat ∧ toFixed4 d₁.lon = toFixed4 d₂.lon))
    ∧ (∀ d₁ d₂ : AcousticDetection, d₁.aru_id = some 0 → d₂.aru_id = some 0 →
        ¬(toFixed4 d₁.lat = toFixed4 d₂.lat ∧ toFixed4 d₁.lon = toFixed4 d₂.lon) →
        (aruStations [d₁, d₂]).length = 2) := by
  constructor
  · intro ds d₁ d₂ h₁ h₂ ha₁ ha₂
    rw [inOneStation_iff_stationKey ds d₁ d₂ h₁ h₂]
    simp [stationKey, ha₁, ha₂]
  · intro d₁ d₂ ha₁ ha₂ hne
    have hk₁ : stationKey d₁ = .byCoord (toFixed4 d₁.lat) (toFixed4 d₁.lon) := by
      simp [stationKey, ha₁]
    have hk₂ : stationKey d₂ = .byCoord (toFixed4 d₂.lat) (toFixed4 d₂.lon) := by
      simp [stationKey, ha₂]
    have hkk : stationKey d₁ ≠ stationKey d₂ := by
      rw [hk₁, hk₂]
      intro h
      injection h with ha hb
      exact hne ⟨ha, hb⟩
    have hbeq : (stationKey d₂ == stationKey d₁) = false :=
      beq_eq_false_iff_ne.mpr (Ne.symm hkk)
    simp [aruStations, aruStationsEntries, addDetection, pushDetection, List.lookup,
      hbeq, hkk, Ne.symm hkk]

/-- Witness for the aru_id-0 claim: two detections with aru_id 0 at rounded
coordinates 1.0000 and 2.0000 yield two Stations, and the coordinate-key
equivalence holds for them inside their own two-element survey. -/
theorem aruId_zero_groups_by_coordinates_witness :
    (aruStations [AcousticDetection.mk 1 1 (some 0), AcousticDetection.mk 2 1 (some 0)]).length = 2
    ∧ (inOneStation [AcousticDetection.mk 1 1 (some 0), AcousticDetection.mk 2 1 (some 0)]
        (AcousticDetection.mk 1 1 (some 0)) (AcousticDetection.mk 2 1 (some 0)) ↔
        toFixed4 (1 : ℚ) = toFixed4 (2 : ℚ) ∧ toFixed4 (1 : ℚ) = toFixed4 (1 : ℚ)) :=
  ⟨aruId_zero_groups_by_coordinates.2 _ _ rfl rfl
      (by simp only [toFixed4_one, toFixed4_two]; simp),
   aruId_zero_groups_by_coordinates.1 _ _ _ (by simp) (by simp) rfl rfl⟩

/-! ## Theorems: distance utility and correlator -/

/-- The haversine distance is symmetric: swapping the two endpoints negates
the two angle differences, whose sines appear squared. -/
theorem getDistanceMeters_comm (lat1 lon1 lat2 lon2 : ℝ) :
    getDistanceMeters lat1 lon1 lat2 lon2 = getDistanceMeters lat2 lon2 lat1 lon1 := by
  simp only [getDistanceMeters]
  have key : ∀ x y u v : ℝ,
      Real.sin ((x - y) * Real.pi / 180 / 2) * Real.sin ((x - y) * Real.pi / 180 / 2) +
        Real.cos (y * Real.pi / 180) * Real.cos (x * Real.pi / 180) *
        Real.sin ((u - v) * Real.pi / 180 / 2) * Real.sin ((u - v) * Real.pi / 180 / 2) =
      Real.sin ((y - x) * Real.pi / 180 / 2) * Real.sin ((y - x) * Real.pi / 180 / 2) +
        Real.cos (x * Real.pi / 180) * Real.cos (y * Real.pi / 180) *
        Real.sin ((v - u) * Real.pi / 180 / 2) * Real.sin ((v - u) * Real.pi / 180 / 2) := by
    intro x y u v
    rw [show (y - x) * Real.pi / 180 / 2 = -((x - y) * Real.pi / 180 / 2) by ring,
      show (v - u) * Real.pi / 180 / 2 = -((u - v) * Real.pi / 180 / 2) by ring,
      Real.sin_neg, Real.sin_neg]
    ring
  rw [key lat2 lat1 lon2 lon1]

/-- The haversine distance from a point to itself is zero. -/
theorem getDistanceMeters_self (lat lon : ℝ) : getDistanceMeters lat lon lat lon = 0 := by
  simp [getDistanceMeters, jsAtan2, Real.sin_zero, Real.sqrt_zero, Real.sqrt_one,
    Real.arctan_zero]

/-- Claim C8: the distance utility is symmetric in its two coordinates and
vanishes on equal coordinates. -/
theorem getDistanceMeters_symm_and_self :
    (∀ lat1 lon1 lat2 lon2 : ℝ,
      getDistanceMeters lat1 lon1 lat2 lon2 = getDistanceMeters lat2 lon2 lat1 lon1)
    ∧ (∀ lat lon : ℝ, getDistanceMeters lat lon lat lon = 0) :=
  ⟨getDistanceMeters_comm, getDistanceMeters_self⟩

/-- Claim C2: for an anchor with coordinates present, a candidate's record is
in the correlator's output exactly when its distance is strictly below 500 m
and its absolute time delta strictly below 30 minutes; the output is a
permutation of the filtered mapped collection (so exactly its members, with
multiplicity); a member at exactly 500.0 m never appears; and the empty
collection yields the empty list, not an error. -/
theorem correlator_window_exact (current : Detection) (la lo : ℝ)
    (_hla : current.lat = some la) (_hlo : current.lon = some lo)
    (ot : String) (C : List Detection) :
    (∀ d ∈ C, (mkCorrelation current ot d ∈ correlations current ot C ↔
      (∃ x, (mkCorrelation current ot d).dist = some x ∧ x < 500)
        ∧ (mkCorrelation current ot d).timeDiff < 30))
    ∧ (correlations current ot C).Perm
        ((C.map (mkCorrelation current ot)).filter matchesWindow)
    ∧ (∀ item ∈ correlations current ot C, item.dist ≠ some 500)
    ∧ correlations current ot [] = [] := by
  refine ⟨?_, List.perm_insertionSort distLe _, ?_, rfl⟩
  · intro d hd
    unfold correlations
    rw [List.mem_insertionSort, List.mem_filter]
    constructor
    · rintro ⟨-, hmatch⟩
      unfold matchesWindow at hmatch
      rw [Bool.and_eq_true] at hmatch
      rcases hmatch with ⟨hdist, htime⟩
      rcases hx : (mkCorrelation current ot d).dist with _ | x
      · rw [hx] at hdist
        simp at hdist
      · rw [hx] at hdist
        simp only [decide_eq_true_eq] at hdist htime
        exact ⟨⟨x, rfl, hdist⟩, htime⟩
    · rintro ⟨⟨x, hx, hlt⟩, ht⟩
      refine ⟨List.mem_map_of_mem _ hd, ?_⟩
      unfold matchesWindow
      rw [hx, Bool.and_eq_true]
      exact ⟨by simpa using hlt, by simpa using ht⟩
  · intro item hmem
    unfold correlations at hmem
    rw [List.mem_insertionSort, List.mem_filter] at hmem
    rcases hmem with ⟨-, hmatch⟩
    unfold matchesWindow at hmatch
    rw [Bool.and_eq_true] at hmatch
    rcases hx : item.dist with _ | x
    · simp [hx]
    · rw [hx] at hmatch
      simp only [decide_eq_true_eq] at hmatch
      intro h
      exact absurd (Option.some_inj.mp h ▸ hmatch.1) (lt_irrefl (500 : ℝ))

/-- Witness for the window-exactness claim: the anchor at the origin with one
co-located candidate one minute away. -/
theorem correlator_window_exact_witness :
    (∀ d ∈ [Detection.mk (some 0) (some 0) 60000],
      (mkCorrelation (Detection.mk (some 0) (some 0) 0) "acoustic" d ∈
          correlations (Detection.mk (some 0) (some 0) 0) "acoustic"
            [Detection.mk (some 0) (some 0) 60000] ↔
        (∃ x, (mkCorrelation (Detection.mk (some 0) (some 0) 0) "acoustic" d).dist = some x
            ∧ x < 500)
          ∧ (mkCorrelation (Detection.mk (some 0) (some 0) 0) "acoustic" d).timeDiff < 30))
    ∧ (correlations (Detection.mk (some 0) (some 0) 0) "acoustic"
          [Detection.mk (some 0) (some 0) 60000]).Perm
        (([Detection.mk (some 0) (some 0) 60000].map
            (mkCorrelation (Detection.mk (some 0) (some 0) 0) "acoustic")).filter matchesWindow)
    ∧ (∀ item ∈ correlations (Detection.mk (some 0) (some 0) 0) "acoustic"
          [Detection.mk (some 0) (some 0) 60000], item.dist ≠ some 500)
    ∧ correlations (Detection.mk (some 0) (some 0) 0) "acoustic" [] = [] :=
  correlator_window_exact (Detection.mk (some 0) (some 0) 0) 0 0 rfl rfl "acoustic"
    [Detection.mk (some 0) (some 0) 60000]

/-- Counterexample to claim C3 as stated: with two candidates at the anchor's
own position (distance 0 for both) and time deltas of 20 and 5 minutes, given
in that order, the stable distance-only sort keeps the 20-minute candidate
first, so equal distances are NOT tie-broken by ascending time delta. -/
theorem correlations_tie_not_time_ordered :
    correlations (Detection.mk (some 10) (some 20) 1800000) "acoustic"
        [Detection.mk (some 10) (some 20) 600000, Detection.mk (some 10) (some 20) 1500000] =
      [Correlation.mk (Detection.mk (some 10) (some 20) 600000) (some 0) 20 "acoustic",
       Correlation.mk (Detection.mk (some 10) (some 20) 1500000) (some 0) 5 "acoustic"]
    ∧ ¬ DistTimeOrdered
        (correlations (Detection.mk (some 10) (some 20) 1800000) "acoustic"
          [Detection.mk (some 10) (some 20) 600000,
           Detection.mk (some 10) (some 20) 1500000]) := by
  have ht1 : |(1800000 : ℝ) - 600000| / 1000 / 60 = 20 := by
    rw [show (1800000 : ℝ) - 600000 = 1200000 by norm_num,
      abs_of_nonneg (by norm_num : (0 : ℝ) ≤ 1200000)]
    norm_num
  have ht2 : |(1800000 : ℝ) - 1500000| / 1000 / 60 = 5 := by
    rw [show (1800000 : ℝ) - 1500000 = 300000 by norm_num,
      abs_of_nonneg (by norm_num : (0 : ℝ) ≤ 300000)]
    norm_num
  have hres : correlations (Detection.mk (some 10) (some 20) 1800000) "acoustic"
      [Detection.mk (some 10) (some 20) 600000, Detection.mk (some 10) (some 20) 1500000] =
      [Correlation.mk (Detection.mk (some 10) (some 20) 600000) (some 0) 20 "acoustic",
       Correlation.mk (Detection.mk (some 10) (some 20) 1500000) (some 0) 5 "acoustic"] := by
    norm_num [correlations, mkCorrelation, jsDist, getDistanceMeters_self, matchesWindow,
      ht1, ht2, List.insertionSort, List.orderedInsert, distLe, distLeB]
  refine ⟨hres, ?_⟩
  intro h
  rw [hres] at h
  unfold DistTimeOrdered at h
  rw [List.sorted_cons] at h
  have := (h.1 _ (List.mem_cons_self _ _)).2 rfl
  norm_num at this

/-- The distance comparator holds between two records of equal distance. -/
theorem distLe_of_dist_eq {a b : Correlation} (h : a.dist = b.dist) : distLe a b := by
  unfold distLe distLeB
  rw [h]
  rcases hb : b.dist with _ | x <;> simp

/-- Ordered insertion of a record outside a class leaves the class
restriction of the list unchanged. -/
theorem filter_orderedInsert_neg (p : Correlation → Bool) (a : Correlation)
    (hpa : p a = false) :
    ∀ L : List Correlation, (List.orderedInsert distLe a L).filter p = L.filter p
  | [] => by simp [List.orderedInsert, hpa]
  | b :: L => by
      by_cases hab : distLe a b
      · rw [List.orderedInsert, if_pos hab]
        simp [List.filter_cons, hpa]
      · rw [List.orderedInsert, if_neg hab]
        cases hpb : p b <;>
          simp [List.filter_cons, hpb, filter_orderedInsert_neg p a hpa L]

/-- Ordered insertion of a record that precedes (in the comparator) everything
in its class puts it at the head of the class restriction: the insertion walks
only past strictly closer records. -/
theorem filter_orderedInsert_pos (p : Correlation → Bool) (a : Correlation)
    (hpa : p a = true) (hp : ∀ y, p y = true → distLe a y) :
    ∀ L : List Correlation, (List.orderedInsert distLe a L).filter p = a :: L.filter p
  | [] => by simp [List.orderedInsert, hpa]
  | b :: L => by
      by_cases hab : distLe a b
      · rw [List.orderedInsert, if_pos hab]
        simp [List.filter_cons, hpa]
      · rw [List.orderedInsert, if_neg hab]
        have hpb : p b = false := by
          cases hpb : p b
          · rfl
          · exact absurd (hp b hpb) hab
        simp [List.filter_cons, hpb, filter_orderedInsert_pos p a hpa hp L]

/-- Stability of the distance-only insertion sort: restricting to any one
distance value, the sorted list is the unsorted list — equal-distance records
keep their encounter order. -/
theorem insertionSort_sameDist_stable (q : Option ℝ) :
    ∀ L : List Correlation,
      (List.insertionSort distLe L).filter (sameDist q) = L.filter (sameDist q)
  | [] => rfl
  | a :: L => by
      rw [List.insertionSort]
      cases hpa : sameDist q a
      · rw [filter_orderedInsert_neg _ a hpa, insertionSort_sameDist_stable q L]
        simp [List.filter_cons, hpa]
      · have ha : a.dist = q := by simpa [sameDist] using hpa
        rw [filter_orderedInsert_pos _ a hpa ?hp, insertionSort_sameDist_stable q L]
        · simp [List.filter_cons, hpa]
        case hp =>
          intro y hy
          have hyq : y.dist = q := by simpa [sameDist] using hy
          exact distLe_of_dist_eq (ha.trans hyq.symm)

/-- Amended claim C3: the correlator's result list is sorted ascending by
distance, and ties in distance are kept in the order the candidates were
encountered (the JS sort is stable and compares only distances), not by time
delta: restricting the output to any one distance value gives exactly the
same-distance records of the filtered input collection, in input order. -/
theorem correlations_sorted_by_distance (current : Detection) (ot : String)
    (C : List Detection) :
    (correlations current ot C).Sorted distLe
    ∧ (correlations current ot C).Pairwise
        (fun a b => ∀ x y : ℝ, a.dist = some x → b.dist = some y → x ≤ y)
    ∧ (∀ q : Option ℝ,
        (correlations current ot C).filter (sameDist q) =
          ((C.map (mkCorrelation current ot)).filter matchesWindow).filter (sameDist q)) := by
  have hs : (correlations current ot C).Sorted distLe := List.sorted_insertionSort distLe _
  refine ⟨hs, List.Pairwise.imp ?_ hs, ?_⟩
  · intro a b hab x y hx hy
    unfold distLe distLeB at hab
    rw [hx, hy] at hab
    simpa using hab
  · intro q
    unfold correlations
    exact insertionSort_sameDist_stable q _

/-- Shared computation: an anchor with a missing coordinate gives every
candidate a NaN distance, which fails the strict window filter, so the
correlator returns the empty list. -/
theorem correlations_eq_nil_of_missing (current : Detection) (ot : String)
    (C : List Detection) (h : current.lat = none ∨ current.lon = none) :
    correlations current ot C = [] := by
  have hfilter : ∀ d, matchesWindow (mkCorrelation current ot d) = false := by
    intro d
    have hdist : jsDist current.lat current.lon d.lat d.lon = none := by
      rcases h with h | h
      · rw [h]
        rcases current.lon with _ | b <;> rcases d.lat with _ | c <;>
          rcases d.lon with _ | e <;> rfl
      · rw [h]
        rcases current.lat with _ | a <;> rcases d.lat with _ | c <;>
          rcases d.lon with _ | e <;> rfl
    simp [matchesWindow, mkCorrelation, hdist]
  unfold correlations
  have hnil : (C.map (mkCorrelation current ot)).filter matchesWindow = [] := by
    rw [List.filter_eq_nil_iff]
    intro a ha
    rcases List.mem_map.mp ha with ⟨d, -, rfl⟩
    rw [hfilter d]
    exact Bool.false_ne_true
  rw [hnil]
  rfl

/-- Counterexample to claim C4 as stated: an anchor missing its latitude does
NOT fail with any error condition — the correlator silently returns the empty
list, here on a candidate that a valid anchor at the same position and time
window does match (so the empty result is indistinguishable from "no
matches"). -/
theorem missing_coords_silently_empty :
    correlations (Detection.mk none (some 20) 1800000) "acoustic"
        [Detection.mk (some 10) (some 20) 1500000] = []
    ∧ correlations (Detection.mk (some 10) (some 20) 1800000) "acoustic"
        [Detection.mk (some 10) (some 20) 1500000] =
      [Correlation.mk (Detection.mk (some 10) (some 20) 1500000) (some 0) 5 "acoustic"] := by
  constructor
  · exact correlations_eq_nil_of_missing _ _ _ (Or.inl rfl)
  · have ht2 : |(1800000 : ℝ) - 1500000| / 1000 / 60 = 5 := by
      rw [show (1800000 : ℝ) - 1500000 = 300000 by norm_num,
        abs_of_nonneg (by norm_num : (0 : ℝ) ≤ 300000)]
      norm_num
    norm_num [correlations, mkCorrelation, jsDist, getDistanceMeters_self, matchesWindow,
      ht2, List.insertionSort, List.orderedInsert]

/-- Amended claim C4: for every anchor detection missing its lat or lon field
the correlator silently returns the empty list (every distance is NaN and
fails the strict thresholds); no InvalidDetection condition exists in the
code. -/
theorem correlations_missing_coords_empty (current : Detection) (ot : String)
    (C : List Detection) (h : current.lat = none ∨ current.lon = none) :
    correlations current ot C = [] :=
  correlations_eq_nil_of_missing current ot C h

/-- Witness for the amended missing-coordinates claim: a concrete anchor with
no latitude against a one-candidate collection. -/
theorem correlations_missing_coords_empty_witness :
    correlations (Detection.mk none (some 20) 0) "acoustic"
      [Detection.mk (some 10) (some 20) 60000] = [] :=
  correlations_missing_coords_empty (Detection.mk none (some 20) 0) "acoustic"
    [Detection.mk (some 10) (some 20) 60000] (Or.inl rfl)

end BirdFusion
